import Mathlib

/-!
Verification of the unx-clipboard history store and clipboard monitor.

Shallow embedding of `src/unx-clipboard/core.py` and `src/unx-clipboard/services.py`.
The SQLite table `clipboard` is modelled as a `List Entry` in rowid (insertion) order.
Timestamps are modelled as integer seconds (`datetime.now()` values); the sub-second
part of a Python timestamp plays no role in any comparison verified here.
-/

/-- A row of the `clipboard` table (core.py `create_table`, lines 47-56):
`id INTEGER PRIMARY KEY, content TEXT, type TEXT, timestamp TIMESTAMP,
pinned INTEGER DEFAULT 0, is_snippet INTEGER DEFAULT 0`.
The 0/1 integer flags are modelled as `Bool`. -/
structure Entry where
  id : Nat
  content : String
  type : String
  timestamp : Int
  pinned : Bool
  is_snippet : Bool
deriving DecidableEq

/-- `Database.add_entry` (core.py lines 60-74): computes
`cutoff_time = datetime.now() - timedelta(seconds=2)`, returns without inserting when a
row with the same `content` and `type` and `timestamp > cutoff_time` exists, and
otherwise inserts one row `(content, type, now)`; `pinned` and `is_snippet` take their
column defaults 0. `now` is passed explicitly; `next_id` models the fresh rowid. -/
def add_entry (store : List Entry) (now : Int) (content ctype : String)
    (next_id : Nat) : List Entry :=
  let cutoff_time := now - 2
  if store.any (fun e =>
      e.content == content && e.type == ctype && decide (cutoff_time < e.timestamp)) then
    store
  else
    store ++ [{ id := next_id, content := content, type := ctype, timestamp := now,
                pinned := false, is_snippet := false }]

/-- The de-dup condition of `add_entry` stated as a proposition: some stored row has
identical content and type and a timestamp strictly later than `now - 2` seconds. -/
def recent_duplicate (store : List Entry) (now : Int) (content ctype : String) : Prop :=
  ∃ e ∈ store, e.content = content ∧ e.type = ctype ∧ now - 2 < e.timestamp

instance (store : List Entry) (now : Int) (content ctype : String) :
    Decidable (recent_duplicate store now content ctype) := by
  unfold recent_duplicate
  infer_instance

/-- SQLite `LIKE '%pat%'` modelled as substring containment (core.py lines 84-86 and
96-98; ASCII case folding of LIKE is not modelled — every verified claim uses the
empty search text, which skips the WHERE clause entirely). -/
def like_match (content pat : String) : Bool :=
  decide (List.IsInfix pat.data content.data)

/-- `Database.get_total_entry_count` (core.py lines 80-90): `SELECT COUNT(*)`,
with a `WHERE content LIKE ?` clause only when `search_text` is truthy (non-empty). -/
def get_total_entry_count (store : List Entry) (search_text : String) : Nat :=
  (if search_text = "" then store
   else store.filter (fun e => like_match e.content search_text)).length

/-- The `ORDER BY timestamp DESC` ordering relation on rows. -/
def ts_desc (a b : Entry) : Prop := b.timestamp ≤ a.timestamp

instance : DecidableRel ts_desc := fun a b =>
  inferInstanceAs (Decidable (b.timestamp ≤ a.timestamp))

instance : IsTotal Entry ts_desc :=
  ⟨fun a b => le_total b.timestamp a.timestamp⟩

instance : IsTrans Entry ts_desc :=
  ⟨fun _ _ _ hab hbc => le_trans hbc hab⟩

/-- The result order of `ORDER BY timestamp DESC` (core.py line 100), modelled as a
deterministic sort that is non-increasing in `timestamp`.  SQLite leaves the relative
order of rows with equal timestamps unspecified; this model fixes one such order. -/
def order_by_timestamp_desc (store : List Entry) : List Entry :=
  store.insertionSort ts_desc

/-- `Database.get_all_entries` (core.py lines 92-107): optional LIKE filter, then
`ORDER BY timestamp DESC LIMIT per_page OFFSET (page - 1) * per_page`. -/
def get_all_entries (store : List Entry) (search_text : String)
    (page per_page : Nat) : List Entry :=
  let rows :=
    if search_text = "" then store
    else store.filter (fun e => like_match e.content search_text)
  ((order_by_timestamp_desc rows).drop ((page - 1) * per_page)).take per_page

/-- `ceil(n / k)` on naturals, the number of pages needed for `n` rows. -/
def ceil_div (n k : Nat) : Nat := (n + k - 1) / k

/-- The concatenation of `get_all_entries "" page k` for `page = 1 .. ceil(N/k)`. -/
def pages_concat (store : List Entry) (k : Nat) : List Entry :=
  ((List.range (ceil_div store.length k)).map
    (fun i => get_all_entries store "" (i + 1) k)).flatten

/-- `Database.toggle_pin` (core.py lines 109-113): `SELECT pinned ... WHERE id = ?`,
then `fetchone()[0]`.  When no row matches, `fetchone()` returns `None` and the `[0]`
subscript raises `TypeError`; otherwise `UPDATE ... SET pinned = 1 - current WHERE id = ?`
rewrites every row with that id (the primary key makes it unique). -/
def toggle_pin (store : List Entry) (entry_id : Nat) : Except String (List Entry) :=
  match store.find? (fun e => e.id == entry_id) with
  | none => Except.error "TypeError: NoneType is not subscriptable"
  | some row =>
    Except.ok (store.map (fun e =>
      if e.id == entry_id then { e with pinned := !row.pinned } else e))

/-- `Database.apply_retention_policy` (core.py lines 127-132): when
`retention_days > 0`, `DELETE ... WHERE pinned = 0 AND is_snippet = 0 AND
timestamp < now - timedelta(days=retention_days)`; otherwise no statement runs.
`timedelta(days=d)` is `d * 86400` seconds. -/
def apply_retention_policy (store : List Entry) (now : Int)
    (retention_days : Int) : List Entry :=
  if retention_days > 0 then
    let cutoff := now - retention_days * 86400
    store.filter (fun e =>
      !(!e.pinned && !e.is_snippet && decide (e.timestamp < cutoff)))
  else store

/-- `os.path.join` for the joins performed with a relative second component. -/
def path_join (a b : String) : String := a ++ "/" ++ b

/-- `Database.clear_history` (core.py lines 134-149): collects the `content` paths of
rows with `type='image' AND pinned=0 AND is_snippet=0`, runs
`DELETE FROM clipboard WHERE pinned = 0 AND is_snippet = 0`, and then removes
`os.path.join(USER_DATA_DIR, relative_path)` for each collected path when that file
exists (per-file errors are printed and swallowed).  The filesystem is modelled as the
list `fs` of existing absolute paths; the net effect of the unlink loop is that none of
the collected paths remain. -/
def clear_history (store : List Entry) (fs : List String)
    (user_data_dir : String) : List Entry × List String :=
  let image_paths_to_delete :=
    (store.filter (fun e =>
      e.type == "image" && !e.pinned && !e.is_snippet)).map (fun e => e.content)
  let store' := store.filter (fun e => !(!e.pinned && !e.is_snippet))
  let fs' := fs.filter (fun p =>
    !(image_paths_to_delete.map (path_join user_data_dir)).contains p)
  (store', fs')

/-- Sample row used by concrete witnesses: an old, unpinned text row. -/
def entry_old : Entry :=
  { id := 1, content := "old", type := "text", timestamp := 0,
    pinned := false, is_snippet := false }

/-- Sample row used by concrete witnesses: a pinned row as old as `entry_old`. -/
def entry_pinned : Entry :=
  { id := 2, content := "keep", type := "text", timestamp := 0,
    pinned := true, is_snippet := false }

/-! ## ClipboardMonitor (core.py lines 154-236) -/

/-- The mutable monitor fields touched by `check_clipboard`, plus the ignore flag:
`self._last_text` and `self._last_image_hash` are read and written by
`check_clipboard`; `self._ignore_next_check` is assigned `False` in `__init__`
(core.py line 167) and `main.py`'s `copy_item_to_clipboard` assigns
`self.monitor.ignore_next_change = True` (main.py line 224), but `check_clipboard`
never reads either attribute. -/
structure MonitorState where
  last_text : String
  last_image_hash : Option Int
  ignore_next_check : Bool
deriving DecidableEq

/-- The relative path `os.path.join("images", f"img_{ms}.png")` built for a saved
clipboard image (core.py line 205). -/
def img_rel_path (now_ms : Int) : String :=
  "images/img_" ++ toString now_ms ++ ".png"

/-- `ClipboardMonitor.check_clipboard` (core.py lines 192-224).  A tick's clipboard
reads are inputs: `img_read` models `QApplication.clipboard().image()` plus
`_get_qimage_hash` (`Except.error` = the read raised; `some h` = a non-null image with
hash `h`; `none` = `isNull()`), and `text_read` models `pyperclip.paste()`.  The image
channel is checked first when `log_images` is configured; on a changed non-null image
the hashes are updated, `_last_text` is cleared, the image is saved (file write not
modelled), one `('images/img_<ms>.png', 'image')` emission happens and the text channel
is skipped.  Otherwise a truthy text differing from `_last_text` updates the
fingerprints and emits `(text, 'text')`.  Each channel wraps its work in
`try ... except: pass`, so a failed read yields no emission for that channel. -/
def check_clipboard (log_images : Bool) (s : MonitorState)
    (img_read : Except Unit (Option Int)) (text_read : Except Unit String)
    (now_ms : Int) : MonitorState × List (String × String) :=
  let image_step : Option (MonitorState × List (String × String)) :=
    if log_images then
      match img_read with
      | Except.ok (some current_image_hash) =>
        if some current_image_hash ≠ s.last_image_hash then
          some ({ s with last_image_hash := some current_image_hash, last_text := "" },
                [(img_rel_path now_ms, "image")])
        else none
      | Except.ok none => none
      | Except.error _ => none
    else none
  match image_step with
  | some result => result
  | none =>
    match text_read with
    | Except.ok current_text =>
      if current_text ≠ "" ∧ current_text ≠ s.last_text then
        ({ s with last_text := current_text, last_image_hash := none },
         [(current_text, "text")])
      else (s, [])
    | Except.error _ => (s, [])

/-- Names resolvable on a `ClipboardMonitor` instance when `_run` begins: the instance
attributes assigned in `__init__` (core.py lines 163-178), `thread` assigned in
`start` (line 232), and the names defined in the class body (lines 159-236).
`_stopping` is assigned only inside `stop` (line 236), which has not run while the
loop is polling, and no `_process_clipboard` is defined anywhere in the class. -/
def monitor_attrs : List String :=
  ["_config", "image_dir", "_last_text", "_last_image_hash", "_ignore_next_check",
   "thread", "new_entry", "_get_qimage_hash", "set_last_image_hash",
   "check_clipboard", "_run", "start", "stop"]

/-- Python attribute lookup on the monitor: a name not bound on the instance or its
class raises `AttributeError`. -/
def getattr_monitor (nm : String) : Except String Unit :=
  if nm ∈ monitor_attrs then Except.ok () else Except.error ("AttributeError: " ++ nm)

/-- One iteration attempt of the `_run` poll loop (core.py lines 226-229): evaluate
the loop condition `not self._stopping`, then the body `self._process_clipboard()`.
Neither `_run` nor the loop body contains any `try`. -/
def run_loop_tick : Except String Unit := do
  let _ ← getattr_monitor "_stopping"
  let _ ← getattr_monitor "_process_clipboard"
  Except.ok ()

/-! ## LocalFolderProvider sync retention (services.py lines 345-448) -/

/-- Parameters besides `self` of `LocalFolderProvider._apply_retention_policy` as
defined at services.py line 417: `(self, sync_path)`. -/
def apply_retention_params : List String := ["sync_path"]

/-- Positional arguments passed at the method's only call site, inside
`LocalFolderProvider.sync` at services.py line 405:
`self._apply_retention_policy(sync_path, retention_count)`. -/
def apply_retention_args : List String := ["sync_path", "retention_count"]

/-- `os.path.splitext(self.SYNC_FILENAME)[0]` for `SYNC_FILENAME = "clipboard_sync.zip"`
(services.py lines 254, 395, 425). -/
def sync_filename_stem : String := "clipboard_sync"

/-- The body of `_apply_retention_policy` (services.py lines 417-441), as it would
execute if it were ever entered: read `backup_retention_count` from the sync config
(default 5 — note: not the profile's `retention`); return unchanged when it is 0;
list the files whose name starts with the stem and ends with `.zip`; when more than
the retention count exist, sort them by modification time ascending and delete the
oldest excess.  The directory is modelled as a list of (name, mtime) pairs. -/
def retention_policy_body (files : List (String × Int))
    (backup_retention_count : Nat) : List (String × Int) :=
  if backup_retention_count == 0 then files
  else
    let backups := files.filter (fun f =>
      sync_filename_stem.isPrefixOf f.1 && ".zip".data.isSuffixOf f.1.data)
    if backups.length ≤ backup_retention_count then files
    else
      let sorted := backups.insertionSort (fun a b => a.2 ≤ b.2)
      let files_to_delete := sorted.take (backups.length - backup_retention_count)
      files.filter (fun f => !files_to_delete.contains f)

/-- The call `self._apply_retention_policy(sync_path, retention_count)` under Python
call semantics: a function of one parameter called with two positional arguments
raises `TypeError` before its body runs. -/
def call_apply_retention (files : List (String × Int))
    (backup_retention_count : Nat) : Except String (List (String × Int)) :=
  if apply_retention_args.length == apply_retention_params.length then
    Except.ok (retention_policy_body files backup_retention_count)
  else
    Except.error "TypeError: _apply_retention_policy() takes 2 positional arguments but 3 were given"

/-- The `try` block of `LocalFolderProvider.sync` for a valid active profile
(services.py lines 398-412): the archive is created and copied to the timestamped
`destination_file` in the profile directory, `_save_last_sync_info` runs, then the
retention call executes.  Any exception inside the block — including the `TypeError`
from the retention call — is caught at line 409 and reported through
`sync_complete.emit(False, ...)`; on no exception `emit(True, ...)` runs.  The
returned pair is (directory contents, success flag emitted). -/
def local_folder_sync (files : List (String × Int)) (new_snapshot : String × Int)
    (backup_retention_count : Nat) : List (String × Int) × Bool :=
  let files_after_copy := files ++ [new_snapshot]
  match call_apply_retention files_after_copy backup_retention_count with
  | Except.ok files' => (files', true)
  | Except.error _ => (files_after_copy, false)

/-! ## ImportExport._insert_data (services.py lines 148-209) -/

/-- The `timestamp` value of an incoming import item as `_insert_data` sees it
(services.py lines 152-163): a `datetime` object is used directly; a string is parsed
with `fromisoformat`, falling back to `strptime('%Y-%m-%d %H:%M:%S.%f')`; any other
value hits `continue` and the item is skipped.  (A string that both parsers reject
raises `ValueError` out of `_insert_data`, aborting and rolling back the whole import;
that error path is outside the verified claims and is not modelled.) -/
inductive PyTimestamp where
  | dt : Int → PyTimestamp
  | str_iso : Int → PyTimestamp
  | str_legacy : Int → PyTimestamp
  | other : PyTimestamp
deriving DecidableEq

/-- The parse performed by services.py lines 152-163: `none` means `continue`. -/
def parse_ts : PyTimestamp → Option Int
  | PyTimestamp.dt t => some t
  | PyTimestamp.str_iso t => some t
  | PyTimestamp.str_legacy t => some t
  | PyTimestamp.other => none

/-- An item of the list handed to `_insert_data` by `import_from_json`,
`import_from_csv` or `import_from_sqlite`. -/
structure ImportItem where
  content : String
  type : String
  timestamp : PyTimestamp
  pinned : Bool
  is_snippet : Bool
deriving DecidableEq

/-- The row built by the INSERT of `_insert_data` (services.py lines 166-169):
`(content, type, timestamp, pinned, is_snippet)`, with a fresh rowid. -/
def import_entry (item : ImportItem) (t : Int) (next_id : Nat) : Entry :=
  { id := next_id, content := item.content, type := item.type,
    timestamp := t, pinned := item.pinned, is_snippet := item.is_snippet }

/-- `ImportExport._insert_data` (services.py lines 148-171): for each item in order,
parse the timestamp (skipping non-datetime, non-string values); insert the row only
when `SELECT id FROM clipboard WHERE timestamp = ?` finds no match — the check runs
against the store as already extended by earlier items of the same call — and count
each performed insert.  Returns (final store, reported count). -/
def insert_data : List Entry → List ImportItem → Nat → List Entry × Nat
  | store, [], _ => (store, 0)
  | store, item :: rest, next_id =>
    match parse_ts item.timestamp with
    | none => insert_data store rest next_id
    | some t =>
      if store.any (fun e => e.timestamp == t) then
        insert_data store rest next_id
      else
        let r := insert_data (store ++ [import_entry item t next_id]) rest (next_id + 1)
        (r.1, r.2 + 1)

/-! ## Helper lemmas -/

lemma add_entry_any_iff (store : List Entry) (now : Int) (c ty : String) :
    (store.any fun e =>
        e.content == c && e.type == ty && decide (now - 2 < e.timestamp)) = true ↔
      recent_duplicate store now c ty := by
  simp [recent_duplicate, List.any_eq_true, and_assoc]

/-! ## Claim theorems -/

/-- C1: inserting text content `c` when the store holds a row with identical content
and kind whose timestamp is within the 2-second de-dup window (strictly later than
`now - 2`) leaves the store unchanged; with no such recent row, exactly one row is
appended, carrying the current timestamp, `pinned = false` and `is_snippet = false`. -/
theorem c1_add_entry_dedup (store : List Entry) (now : Int) (c : String) (nid : Nat) :
    (recent_duplicate store now c "text" → add_entry store now c "text" nid = store)
  ∧ (¬ recent_duplicate store now c "text" →
      add_entry store now c "text" nid =
        store ++ [{ id := nid, content := c, type := "text", timestamp := now,
                    pinned := false, is_snippet := false }]) := by
  constructor
  · intro h
    have hc := (add_entry_any_iff store now c "text").mpr h
    simp only [add_entry]
    rw [if_pos hc]
  · intro h
    have hc : (store.any fun e =>
        e.content == c && e.type == "text" && decide (now - 2 < e.timestamp)) ≠ true :=
      fun hx => h ((add_entry_any_iff store now c "text").mp hx)
    simp only [add_entry]
    rw [if_neg (by simpa using hc)]

/-- Witness for C1 at a concrete input: the empty store has no recent duplicate, so
one fresh unpinned, non-snippet row is inserted. -/
theorem c1_add_entry_dedup_witness :
    add_entry [] 100 "hello" "text" 1 =
      [{ id := 1, content := "hello", type := "text", timestamp := 100,
         pinned := false, is_snippet := false }] :=
  (c1_add_entry_dedup [] 100 "hello" 1).2 (by simp [recent_duplicate])

/-- C3 (code bug evaluation): on a tick with the ignore flag set and a changed
clipboard text `"V"`, `check_clipboard` still emits the `('V', 'text')` event, leaves
the flag set, and moves the fingerprints to the new value instead of merely
resynchronizing and skipping — the flag is never consulted (core.py lines 192-224
read neither `_ignore_next_check` nor `ignore_next_change`). -/
theorem c3_ignore_flag_not_consulted :
    check_clipboard true
        { last_text := "old", last_image_hash := none, ignore_next_check := true }
        (Except.ok none) (Except.ok "V") 0 =
      ({ last_text := "V", last_image_hash := none, ignore_next_check := true },
       [("V", "text")]) := by
  decide

/-- C4: when image logging is on and the tick sees a non-null image whose hash differs
from the last-seen one, the outcome is the same for every text-channel reading: exactly
one event is emitted and it is the image event, the text fingerprint `_last_text` is
cleared, and the text channel is never consulted. -/
theorem c4_image_priority (s : MonitorState) (h : Int)
    (text_read : Except Unit String) (now_ms : Int)
    (himg : some h ≠ s.last_image_hash) :
    check_clipboard true s (Except.ok (some h)) text_read now_ms =
      ({ s with last_image_hash := some h, last_text := "" },
       [(img_rel_path now_ms, "image")]) := by
  simp only [check_clipboard]
  rw [if_pos himg]
  simp

/-- Witness for C4 at a concrete input: new image hash 7 and new text both present;
only the image event is emitted. -/
theorem c4_image_priority_witness :
    check_clipboard true
        { last_text := "t", last_image_hash := none, ignore_next_check := false }
        (Except.ok (some 7)) (Except.ok "newtext") 5 =
      ({ last_text := "", last_image_hash := some 7, ignore_next_check := false },
       [("images/img_5.png", "image")]) := by
  have h := c4_image_priority
    { last_text := "t", last_image_hash := none, ignore_next_check := false }
    7 (Except.ok "newtext") 5 (by decide)
  simpa [img_rel_path] using h

/-- C6: with `retention_days = d > 0`, retention keeps a row iff it is pinned, a
snippet, or no older than `now - d` days; the result is always a sublist of the store
(rows are only deleted, never altered); and `retention_days = 0` leaves the store
unchanged. -/
theorem c6_apply_retention (store : List Entry) (now d : Int) :
    (0 < d → ∀ e : Entry,
        e ∈ apply_retention_policy store now d ↔
          e ∈ store ∧
            (e.pinned = true ∨ e.is_snippet = true ∨ now - d * 86400 ≤ e.timestamp))
  ∧ (apply_retention_policy store now d).Sublist store
  ∧ apply_retention_policy store now 0 = store := by
  refine ⟨fun hd e => ?_, ?_, ?_⟩
  · simp only [apply_retention_policy]
    rw [if_pos hd]
    simp only [List.mem_filter]
    constructor
    · rintro ⟨hmem, hp⟩
      refine ⟨hmem, ?_⟩
      simp only [Bool.not_eq_true', Bool.and_eq_false_iff, Bool.not_eq_false,
        decide_eq_false_iff_not, not_lt] at hp
      rcases hp with (h | h) | h
      · exact Or.inl (by simpa using h)
      · exact Or.inr (Or.inl (by simpa using h))
      · exact Or.inr (Or.inr h)
    · rintro ⟨hmem, hp⟩
      refine ⟨hmem, ?_⟩
      simp only [Bool.not_eq_true', Bool.and_eq_false_iff, Bool.not_eq_false,
        decide_eq_false_iff_not, not_lt]
      rcases hp with h | h | h
      · exact Or.inl (Or.inl (by simp [h]))
      · exact Or.inl (Or.inr (by simp [h]))
      · exact Or.inr h
  · simp only [apply_retention_policy]
    split
    · exact List.filter_sublist _
    · exact List.Sublist.refl _
  · simp only [apply_retention_policy]
    rw [if_neg (lt_irrefl 0)]

/-- Witness for C6 at a concrete input: with `retention_days = 1` and the clock two
days past the rows' timestamps, the pinned row survives retention. -/
theorem c6_apply_retention_witness :
    entry_pinned ∈ apply_retention_policy [entry_old, entry_pinned] 172800 1 :=
  ((c6_apply_retention [entry_old, entry_pinned] 172800 1).1 (by decide)
    entry_pinned).mpr (by decide)

/-- C7 (code bug evaluation): for every profile directory contents, fresh snapshot and
retention count, `LocalFolderProvider.sync` leaves all previous snapshots in place and
emits failure: the call `self._apply_retention_policy(sync_path, retention_count)`
passes two positional arguments to a one-parameter method, so it raises `TypeError`,
which the surrounding `except` catches after the snapshot copy — no old snapshot is
ever deleted. -/
theorem c7_sync_retention_never_runs (files : List (String × Int))
    (snap : String × Int) (r : Nat) :
    local_folder_sync files snap r = (files ++ [snap], false) := rfl

/-- C8 (counterexample): calling `toggle_pin` on an empty store with id 1 — an id that
does not exist — is not a silent no-op: it raises `TypeError`, because
`fetchone()` returns `None` and the code subscripts it. -/
theorem c8_counterexample :
    toggle_pin [] 1 = Except.error "TypeError: NoneType is not subscriptable" := rfl

/-- C8 (amended): for an id with no matching row, `toggle_pin` raises `TypeError`
(leaving the store unchanged, as the transaction performs no write); for an id that is
present (ids unique, as guaranteed by the primary key) it flips exactly that row's
`pinned` flag and touches nothing else. -/
theorem c8_toggle_pin_amended (store : List Entry) (entry_id : Nat) :
    ((∀ e ∈ store, e.id ≠ entry_id) →
        toggle_pin store entry_id =
          Except.error "TypeError: NoneType is not subscriptable")
  ∧ (∀ row ∈ store, row.id = entry_id → (store.map Entry.id).Nodup →
        toggle_pin store entry_id = Except.ok (store.map (fun e =>
          if e.id == entry_id then { e with pinned := !e.pinned } else e))) := by
  constructor
  · intro h
    have hnone : store.find? (fun e => e.id == entry_id) = none := by
      rw [List.find?_eq_none]
      intro e he
      simpa using h e he
    simp only [toggle_pin, hnone]
  · intro row hrow hid hnd
    have hsome : (store.find? (fun e => e.id == entry_id)).isSome := by
      rw [List.find?_isSome]
      exact ⟨row, hrow, by simpa using hid⟩
    obtain ⟨r, hr⟩ := Option.isSome_iff_exists.mp hsome
    simp only [toggle_pin, hr]
    congr 1
    apply List.map_congr_left
    intro e he
    by_cases hcase : (e.id == entry_id) = true
    · rw [if_pos hcase, if_pos hcase]
      have her : r ∈ store := List.mem_of_find?_eq_some hr
      have hrid : r.id = entry_id := by simpa using List.find?_some hr
      have heid : e.id = entry_id := by simpa using hcase
      have : e = r :=
        List.inj_on_of_nodup_map hnd he her (by rw [heid, hrid])
      rw [this]
    · rw [if_neg hcase, if_neg hcase]

/-- Witness for C8 at a concrete input: toggling the pin of the one present row flips
its `pinned` flag from `true` to `false`. -/
theorem c8_toggle_pin_amended_witness :
    toggle_pin [entry_pinned] 2 =
      Except.ok [{ entry_pinned with pinned := false }] := by
  have h := (c8_toggle_pin_amended [entry_pinned] 2).2 entry_pinned
    (by simp) (by decide) (by decide)
  simpa [entry_pinned] using h

/-- C9 (code bug evaluation): the very first iteration of the `_run` poll loop raises
`AttributeError` — `self._stopping` is read in the loop condition but is assigned only
in `stop`, and the loop body names `self._process_clipboard`, a method that does not
exist (`check_clipboard` is the actual name) — so an exception propagates out of the
poll loop and terminates it. -/
theorem c9_poll_loop_raises :
    run_loop_tick = Except.error "AttributeError: _stopping" ∧
    getattr_monitor "_process_clipboard" =
      Except.error "AttributeError: _process_clipboard" := by
  constructor
  · rfl
  · rfl

/-- Sample row used by concrete witnesses: an unpinned, non-snippet image row. -/
def entry_image : Entry :=
  { id := 3, content := "images/x.png", type := "image", timestamp := 0,
    pinned := false, is_snippet := false }

/-- C5: `clear_history` deletes exactly the rows with `pinned = false` and
`is_snippet = false` — the surviving rows are precisely the pinned or snippet ones,
kept verbatim and in order (a sublist of the store) — and for every deleted image-kind
row the backing file `USER_DATA_DIR/<content>` is no longer on disk afterwards. -/
theorem c5_clear_history (store : List Entry) (fs : List String) (udir : String) :
    ((clear_history store fs udir).1.Sublist store)
  ∧ (∀ e : Entry, e ∈ (clear_history store fs udir).1 ↔
        e ∈ store ∧ (e.pinned = true ∨ e.is_snippet = true))
  ∧ (∀ e ∈ store, e.pinned = false → e.is_snippet = false → e.type = "image" →
        path_join udir e.content ∉ (clear_history store fs udir).2) := by
  refine ⟨List.filter_sublist _, fun e => ?_, fun e he hp hs ht hmem => ?_⟩
  · simp only [clear_history, List.mem_filter]
    constructor
    · rintro ⟨hm, hcond⟩
      refine ⟨hm, ?_⟩
      simp only [Bool.not_eq_true', Bool.and_eq_false_iff, Bool.not_eq_false] at hcond
      rcases hcond with h | h
      · exact Or.inl (by simpa using h)
      · exact Or.inr (by simpa using h)
    · rintro ⟨hm, hcond⟩
      refine ⟨hm, ?_⟩
      rcases hcond with h | h <;> simp [h]
  · simp only [clear_history] at hmem
    obtain ⟨-, h2⟩ := List.mem_filter.mp hmem
    have hin : path_join udir e.content ∈
        ((store.filter fun e => e.type == "image" && !e.pinned && !e.is_snippet).map
          (fun e => e.content)).map (path_join udir) := by
      apply List.mem_map_of_mem
      apply List.mem_map_of_mem
      exact List.mem_filter.mpr ⟨he, by simp [ht, hp, hs]⟩
    simp only [Bool.not_eq_true'] at h2
    simp at h2
    exact absurd hin (by simpa using h2)

/-- Witness for C5 at a concrete input: clearing a store holding one unpinned image
row and one pinned row removes the image's backing file from disk. -/
theorem c5_clear_history_witness :
    path_join "u" entry_image.content ∉
      (clear_history [entry_image, entry_pinned]
        [path_join "u" entry_image.content] "u").2 :=
  (c5_clear_history [entry_image, entry_pinned]
      [path_join "u" entry_image.content] "u").2.2
    entry_image (by simp) rfl rfl rfl

/-! ## Pagination lemmas (C2) -/

lemma flatten_chunks {α : Type} (k : Nat) :
    ∀ (n : Nat) (l : List α), l.length ≤ n * k →
      ((List.range n).map (fun i => (l.drop (i * k)).take k)).flatten = l := by
  intro n
  induction n with
  | zero =>
    intro l hl
    cases l with
    | nil => rfl
    | cons a t => simp at hl
  | succ n ih =>
    intro l hl
    rw [List.range_succ_eq_map, List.map_cons, List.map_map, List.flatten_cons]
    have hfun : ((fun i => (l.drop (i * k)).take k) ∘ Nat.succ) =
        fun i => (((l.drop k).drop (i * k)).take k) := by
      funext i
      simp only [Function.comp_apply, List.drop_drop]
      congr 2
      rw [Nat.succ_mul]
      omega
    have hlen : (l.drop k).length ≤ n * k := by
      have h2 : (n + 1) * k = n * k + k := by ring
      rw [List.length_drop]
      omega
    rw [hfun, ih (l.drop k) hlen]
    simp

lemma length_le_ceil_div_mul (N k : Nat) (hk : 1 ≤ k) : N ≤ ceil_div N k * k := by
  unfold ceil_div
  have h := Nat.div_add_mod' (N + k - 1) k
  have hmod : (N + k - 1) % k < k := Nat.mod_lt _ (by omega)
  omega

lemma get_all_entries_no_search (store : List Entry) (page k : Nat) :
    get_all_entries store "" page k =
      ((order_by_timestamp_desc store).drop ((page - 1) * k)).take k := by
  simp [get_all_entries]

lemma pages_concat_eq_sorted (store : List Entry) (k : Nat) (hk : 1 ≤ k) :
    pages_concat store k = order_by_timestamp_desc store := by
  unfold pages_concat
  have hfun : (fun i => get_all_entries store "" (i + 1) k) =
      fun i => (((order_by_timestamp_desc store).drop (i * k)).take k) := by
    funext i
    rw [get_all_entries_no_search]
    simp
  rw [hfun]
  apply flatten_chunks
  have hlen : (order_by_timestamp_desc store).length = store.length :=
    List.length_insertionSort ts_desc store
  rw [hlen]
  exact length_le_ceil_div_mul store.length k hk

/-- Rows used by the C2 counterexample: two distinct entries sharing a timestamp (the
table has no uniqueness constraint on `timestamp`, so such a store is reachable, for
instance through `_insert_data` rows of two different imports or two near-simultaneous
`add_entry` calls). -/
def entry_tie1 : Entry :=
  { id := 11, content := "a", type := "text", timestamp := 5,
    pinned := false, is_snippet := false }

/-- Second row of the C2 counterexample, same timestamp as `entry_tie1`. -/
def entry_tie2 : Entry :=
  { id := 12, content := "b", type := "text", timestamp := 5,
    pinned := false, is_snippet := false }

/-- C2 (counterexample): with two stored rows sharing timestamp 5 and page size 2, the
concatenation of the pages cannot be in strictly descending timestamp order — the
claim's universal statement over all stores fails. -/
theorem c2_counterexample :
    ¬ List.Pairwise (fun a b : Entry => b.timestamp < a.timestamp)
        (pages_concat [entry_tie1, entry_tie2] 2) := by
  decide

/-- C2 (amended): for every store and page size `k ≥ 1`, `count("")` returns the number
of stored rows, and the concatenation of `list("", page, k)` for
`page = 1 .. ceil(N/k)` yields all `N` entries with no duplicates and no omissions
(a permutation of the store), in non-increasing timestamp order; the order is strictly
descending whenever the stored timestamps are pairwise distinct. -/
theorem c2_pagination_amended (store : List Entry) (k : Nat) (hk : 1 ≤ k) :
    get_total_entry_count store "" = store.length
  ∧ (pages_concat store k).Perm store
  ∧ List.Pairwise ts_desc (pages_concat store k)
  ∧ ((store.map Entry.timestamp).Nodup →
      List.Pairwise (fun a b : Entry => b.timestamp < a.timestamp)
        (pages_concat store k)) := by
  have hpc := pages_concat_eq_sorted store k hk
  refine ⟨rfl, ?_, ?_, fun hnd => ?_⟩
  · rw [hpc]
    exact List.perm_insertionSort ts_desc store
  · rw [hpc]
    exact List.sorted_insertionSort ts_desc store
  · rw [hpc]
    have hsorted : List.Pairwise ts_desc (order_by_timestamp_desc store) :=
      List.sorted_insertionSort ts_desc store
    have hnd' : ((order_by_timestamp_desc store).map Entry.timestamp).Nodup :=
      (((List.perm_insertionSort ts_desc store).map Entry.timestamp).nodup_iff).mpr hnd
    have hne : List.Pairwise (fun a b : Entry => a.timestamp ≠ b.timestamp)
        (order_by_timestamp_desc store) := List.pairwise_map.mp hnd'
    refine (hsorted.and hne).imp ?_
    rintro a b ⟨hle, hneq⟩
    exact lt_of_le_of_ne hle (Ne.symm hneq)

/-- Witness for C2 at a concrete input: a two-row store with distinct timestamps and
page size 1 paginates into a strictly descending sequence. -/
theorem c2_pagination_amended_witness :
    List.Pairwise (fun a b : Entry => b.timestamp < a.timestamp)
      (pages_concat [entry_tie1, entry_old] 1) :=
  (c2_pagination_amended [entry_tie1, entry_old] 1 (by decide)).2.2.2 (by decide)

/-! ## Import idempotence lemmas (C10) -/

lemma insert_data_append (items : List ImportItem) :
    ∀ (store : List Entry) (nid : Nat),
      ∃ ext, (insert_data store items nid).1 = store ++ ext := by
  induction items with
  | nil =>
    intro store nid
    exact ⟨[], by simp [insert_data]⟩
  | cons item rest ih =>
    intro store nid
    cases hts : parse_ts item.timestamp with
    | none =>
      simp only [insert_data, hts]
      exact ih store nid
    | some t =>
      by_cases hany : (store.any fun e => e.timestamp == t) = true
      · simp only [insert_data, hts, if_pos hany]
        exact ih store nid
      · simp only [insert_data, hts, if_neg hany]
        obtain ⟨ext, hext⟩ := ih (store ++ [import_entry item t nid]) (nid + 1)
        exact ⟨import_entry item t nid :: ext, by rw [hext, List.append_assoc]; rfl⟩

lemma insert_data_count (items : List ImportItem) :
    ∀ (store : List Entry) (nid : Nat),
      (insert_data store items nid).1.length =
        store.length + (insert_data store items nid).2 := by
  induction items with
  | nil =>
    intro store nid
    simp [insert_data]
  | cons item rest ih =>
    intro store nid
    cases hts : parse_ts item.timestamp with
    | none =>
      simp only [insert_data, hts]
      exact ih store nid
    | some t =>
      by_cases hany : (store.any fun e => e.timestamp == t) = true
      · simp only [insert_data, hts, if_pos hany]
        exact ih store nid
      · simp only [insert_data, hts, if_neg hany]
        have h := ih (store ++ [import_entry item t nid]) (nid + 1)
        simp only [List.length_append, List.length_cons, List.length_nil] at h
        omega

lemma insert_data_covers (items : List ImportItem) :
    ∀ (store : List Entry) (nid : Nat), ∀ item ∈ items, ∀ t,
      parse_ts item.timestamp = some t →
      ((insert_data store items nid).1.any fun e => e.timestamp == t) = true := by
  induction items with
  | nil =>
    intro store nid item hmem
    simp at hmem
  | cons it rest ih =>
    intro store nid item hmem t hts
    rcases List.mem_cons.mp hmem with heq | hmem'
    · subst heq
      by_cases hany : (store.any fun e => e.timestamp == t) = true
      · simp only [insert_data, hts, if_pos hany]
        obtain ⟨ext, hext⟩ := insert_data_append rest store nid
        rw [hext, List.any_append, hany, Bool.true_or]
      · simp only [insert_data, hts, if_neg hany]
        obtain ⟨ext, hext⟩ :=
          insert_data_append rest (store ++ [import_entry item t nid]) (nid + 1)
        rw [hext, List.any_append, List.any_append]
        simp [import_entry]
    · cases hts2 : parse_ts it.timestamp with
      | none =>
        simp only [insert_data, hts2]
        exact ih store nid item hmem' t hts
      | some t2 =>
        by_cases hany : (store.any fun e => e.timestamp == t2) = true
        · simp only [insert_data, hts2, if_pos hany]
          exact ih store nid item hmem' t hts
        · simp only [insert_data, hts2, if_neg hany]
          exact ih _ _ item hmem' t hts

lemma insert_data_noop (items : List ImportItem) :
    ∀ (store : List Entry) (nid : Nat),
      (∀ item ∈ items, ∀ t, parse_ts item.timestamp = some t →
          (store.any fun e => e.timestamp == t) = true) →
      insert_data store items nid = (store, 0) := by
  induction items with
  | nil =>
    intro store nid _
    rfl
  | cons it rest ih =>
    intro store nid h
    cases hts : parse_ts it.timestamp with
    | none =>
      simp only [insert_data, hts]
      exact ih store nid (fun item hm t ht => h item (List.mem_cons_of_mem _ hm) t ht)
    | some t =>
      simp only [insert_data, hts, if_pos (h it (List.mem_cons_self _ _) t hts)]
      exact ih store nid (fun item hm t ht => h item (List.mem_cons_of_mem _ hm) t ht)

lemma insert_data_nodup_ts (items : List ImportItem) :
    ∀ (store : List Entry) (nid : Nat),
      (store.map Entry.timestamp).Nodup →
      ((insert_data store items nid).1.map Entry.timestamp).Nodup := by
  induction items with
  | nil =>
    intro store nid h
    simpa [insert_data] using h
  | cons item rest ih =>
    intro store nid h
    cases hts : parse_ts item.timestamp with
    | none =>
      simp only [insert_data, hts]
      exact ih store nid h
    | some t =>
      by_cases hany : (store.any fun e => e.timestamp == t) = true
      · simp only [insert_data, hts, if_pos hany]
        exact ih store nid h
      · simp only [insert_data, hts, if_neg hany]
        apply ih
        have hnotin : t ∉ store.map Entry.timestamp := by
          intro hin
          apply hany
          rw [List.any_eq_true]
          obtain ⟨e, he, hets⟩ := List.mem_map.mp hin
          exact ⟨e, he, by simp [hets]⟩
        simp [List.nodup_append, h, hnotin, import_entry]

/-- Sample import item used by the C10 witness. -/
def item_sample : ImportItem :=
  { content := "x", type := "text", timestamp := PyTimestamp.str_iso 42,
    pinned := false, is_snippet := false }

/-- C10: `_insert_data` — shared by the JSON, CSV and SQLite imports — inserts an
incoming item only when no row with exactly that timestamp exists yet, so the reported
count equals the number of rows actually inserted (final length minus initial length),
re-running the same item list immediately afterwards inserts zero rows and reports 0
(import is idempotent with respect to timestamps), and a store with pairwise-distinct
timestamps still has pairwise-distinct timestamps after an import. -/
theorem c10_import_idempotent (store : List Entry) (items : List ImportItem)
    (nid nid' : Nat) :
    (insert_data store items nid).1.length =
      store.length + (insert_data store items nid).2
  ∧ insert_data (insert_data store items nid).1 items nid' =
      ((insert_data store items nid).1, 0)
  ∧ ((store.map Entry.timestamp).Nodup →
      ((insert_data store items nid).1.map Entry.timestamp).Nodup) := by
  refine ⟨insert_data_count items store nid, ?_,
    fun h => insert_data_nodup_ts items store nid h⟩
  apply insert_data_noop
  intro item hm t ht
  exact insert_data_covers items store nid item hm t ht

/-- Witness for C10 at a concrete input: importing `item_sample` into the empty store
and importing it again — the second run is a no-op reporting count 0, and the
timestamps stay duplicate-free. -/
theorem c10_import_idempotent_witness :
    insert_data (insert_data [] [item_sample] 1).1 [item_sample] 9 =
      ((insert_data [] [item_sample] 1).1, 0) ∧
    ((insert_data [] [item_sample] 1).1.map Entry.timestamp).Nodup :=
  ⟨(c10_import_idempotent [] [item_sample] 1 9).2.1,
   (c10_import_idempotent [] [item_sample] 1 9).2.2 (by simp)⟩
